import Mathlib

/-!
Verification of the umbrella-sampling / WHAM tutorial pipeline
(steered window generation, per-window sampling, WHAM input preparation).

The embedding follows the notebook code: the steered-MD (SMD) pulling loop
that moves a harmonic restraint center `r0` and captures window snapshots,
the `run_window` sampling function that records a CV timeseries, the loop
that runs all windows, the save loop that writes `window_i.pdb` files, and
the analysis cell that plots histograms and writes the WHAM metadata file.

The external dynamics engine is abstracted as a trace of observations: each
iteration of the pulling loop yields the live collective-variable (CV) value
together with the configuration (positions) at that point; the sampling run
is abstracted as a function from cumulative step count to the live CV value.
CV values are modelled as rationals.
-/

/-- Parameters of the SMD pulling stage, as set in the notebook cell:
pulling speed `v_pulling`, integration time step `dt`, number of dynamics
steps between restraint increments `increment_steps`, the starting restraint
center `r0` (1.3 nm in the notebook), and the ordered list of target window
centers (`np.linspace(1.3, 3.3, 24)` in the notebook). -/
structure SMDParams where
  v_pulling : ℚ
  dt : ℚ
  increment_steps : ℕ
  r0_start : ℚ
  windows : List ℚ

/-- The amount added to the restraint center on every iteration of the
pulling loop: `v_pulling * dt * increment_steps`. -/
def r0_increment (p : SMDParams) : ℚ :=
  p.v_pulling * p.dt * (p.increment_steps : ℚ)

/-- State threaded through the SMD pulling loop. `r0` is the current
restraint center; `r0_log` records every value passed to
`simulation.context.setParameter('r0', r0)`, in order; `window_index` is the
pointer into the target list; `window_coords` holds the captured position
snapshots in capture order; `captured_cvs` records the value
`current_cv_value` held at each capture (the live CV at the capture moment,
kept for stating logging/monotonicity properties). -/
structure SMDState (α : Type) where
  r0 : ℚ
  r0_log : List ℚ
  window_index : ℕ
  window_coords : List α
  captured_cvs : List ℚ

/-- Initial state of the pulling loop: `r0 = r0_start`, `window_coords = []`,
`window_index = 0`. -/
def smdInit (α : Type) (p : SMDParams) : SMDState α :=
  { r0 := p.r0_start, r0_log := [], window_index := 0,
    window_coords := [], captured_cvs := [] }

/-- One iteration of the SMD pulling loop, given the observation produced by
`simulation.step(increment_steps)`: the live CV value and the current
positions. Mirrors the notebook body: read `current_cv_value`; increment
`r0` by `v_pulling * dt * increment_steps` and set the context parameter;
then the capture check
`if window_index < len(windows) and current_cv_value >= windows[window_index]`,
which appends the positions and advances `window_index` by one. -/
def smdStep {α : Type} (p : SMDParams) (st : SMDState α) (obs : ℚ × α) :
    SMDState α :=
  let cv := obs.1
  let r0new := st.r0 + r0_increment p
  let st1 : SMDState α :=
    { st with r0 := r0new, r0_log := st.r0_log ++ [r0new] }
  if st1.window_index < p.windows.length ∧
      p.windows.getD st1.window_index 0 ≤ cv then
    { st1 with
      window_coords := st1.window_coords ++ [obs.2],
      captured_cvs := st1.captured_cvs ++ [cv],
      window_index := st1.window_index + 1 }
  else st1

/-- The whole SMD pulling loop: fold `smdStep` over the trace of
observations (one observation per iteration; the notebook runs
`total_steps // increment_steps` iterations). -/
def smdRun {α : Type} (p : SMDParams) (obs : List (ℚ × α)) : SMDState α :=
  obs.foldl (smdStep p) (smdInit α p)

/-- The save loop `for i, coords in enumerate(window_coords)` writing one
`window_i.pdb` file per captured snapshot: the resulting file store, keyed
by the window index in the file name. -/
def saveWindowFiles {α : Type} (coords : List α) : List (ℕ × α) :=
  coords.enum

/-- The full Generator stage: run the pulling loop, then write the snapshot
files; returns the file store and the final loop state (the state, in
particular `r0`, is left as the loop ends — nothing resets it). -/
def smdGenerate {α : Type} (p : SMDParams) (obs : List (ℚ × α)) :
    List (ℕ × α) × SMDState α :=
  let st := smdRun p obs
  (saveWindowFiles st.window_coords, st)

/-- Opening `window_{i}.pdb` in `run_window`: look the index up in the file
store written by the Generator; `none` models the file-not-found error
raised by `app.PDBFile` when the file was never written. -/
def loadWindowSnapshot {α : Type} (files : List (ℕ × α)) (i : ℕ) : Option α :=
  List.lookup i files

/-- Parameters of one window's sampling run (`run_window`): equilibration
step count (1000 in the notebook), production step count `total_steps`
(10000), and recording stride `record_steps` (100). -/
structure WindowParams where
  equil_steps : ℕ
  total_steps : ℕ
  record_steps : ℕ

/-- The constants used by the notebook's `run_window`. -/
def notebookWindowParams : WindowParams :=
  { equil_steps := 1000, total_steps := 10000, record_steps := 100 }

/-- The recording loop of `run_window`, abstracting the engine as `cvAfter`,
the live CV value after a given cumulative number of dynamics steps in this
window's run. Equilibration advances the step count to `equil_steps` with
nothing recorded; then each of the `total_steps // record_steps` iterations
advances by `record_steps` and appends `[i, current_cv_value]`. Returns the
final step count and the recorded `cv_values` list. -/
def runWindowRecord (wp : WindowParams) (cvAfter : ℕ → ℚ) :
    ℕ × List (ℕ × ℚ) :=
  (List.range (wp.total_steps / wp.record_steps)).foldl
    (fun acc i =>
      (acc.1 + wp.record_steps, acc.2 ++ [(i, cvAfter (acc.1 + wp.record_steps))]))
    (wp.equil_steps, [])

/-- The CV timeseries `run_window` saves to `cv_values_window_{i}.txt`:
a two-column list of (sample index, CV value). -/
def run_window_cv_values (wp : WindowParams) (cvAfter : ℕ → ℚ) :
    List (ℕ × ℚ) :=
  (runWindowRecord wp cvAfter).2

/-- The name `run_window` saves its timeseries under:
`f'cv_values_window_\x7bwindow_index\x7d.txt'`. -/
def cv_values_filename (i : ℕ) : String :=
  "cv_values_window_" ++ toString i ++ ".txt"

/-- The timeseries filename the metadata cell writes into `metafile.txt`
(`f'cv_values_window_\x7bi\x7d.txt ...'`). -/
def meta_filename (i : ℕ) : String :=
  "cv_values_window_" ++ toString i ++ ".txt"

/-- The force constant of the harmonic restraint, as set in the notebook:
`fc_pull = 1000.0 kJ/mol/nm^2` (the global parameter of the
`CustomCVForce('0.5 * fc_pull * (cv-r0)^2')`, also in effect during each
window's sampling since `run_window` reuses the same simulation). -/
def fc_pull : ℚ := 1000

/-- One line of the WHAM metadata file: timeseries filename, restraint
center, force constant (the notebook writes them whitespace-separated). -/
structure MetaLine where
  filename : String
  center : ℚ
  k : ℚ
deriving DecidableEq

/-- The analysis cell: for each window index `i` load the timeseries data
(`np.loadtxt`), plot its histogram (`plt.hist` — visualization only, no
value flows out of it), and append the line
`f'cv_values_window_\x7bi\x7d.txt \x7bwindows[i]\x7d 1000'` to the metadata
lines, which are then written to `metafile.txt`. -/
def metafilelines (cvData : ℕ → List ℚ) (ws : List ℚ) : List MetaLine :=
  (List.range ws.length).foldl
    (fun acc i =>
      let _data := cvData i
      acc ++ [{ filename := meta_filename i, center := ws.getD i 0, k := 1000 }])
    []

/-- Modelled from the spec (§3 Histogram): counts of samples falling into
each of `B` fixed-width bins spanning `[xmin, xmax]`. The notebook itself
computes histograms only inside `plt.hist` for display; this definition is
used to state overlap properties of the data. -/
def histCounts (B : ℕ) (xmin xmax : ℚ) (samples : List ℚ) : List ℕ :=
  let w := (xmax - xmin) / (B : ℚ)
  (List.range B).map (fun b =>
    (samples.filter (fun x =>
      decide (xmin + (b : ℚ) * w ≤ x) && decide (x < xmin + ((b : ℚ) + 1) * w))).length)

/-- Number of bins in which both histograms have a nonzero count. -/
def overlapBinCount (h1 h2 : List ℕ) : ℕ :=
  ((h1.zip h2).filter (fun c => decide (0 < c.1) && decide (0 < c.2))).length

/-- State of the `for n in range(24): run_window(n)` loop: whether an
exception has aborted the loop, and which windows were actually executed. -/
structure RunAllState where
  aborted : Bool
  executed : List ℕ
deriving DecidableEq

/-- One iteration of the run-all-windows loop: if an earlier window raised,
nothing more runs; otherwise window `n` runs and the loop aborts afterwards
iff `run_window(n)` raised (modelled by `fails n`, e.g. a
numerical-instability error signalled by the engine). -/
def runAllStep (fails : ℕ → Bool) (st : RunAllState) (n : ℕ) : RunAllState :=
  if st.aborted then st
  else { aborted := fails n, executed := st.executed ++ [n] }

/-- The plain sequential loop `for n in range(numWindows): run_window(n)`
with no exception handling around the calls. -/
def runAllWindows (fails : ℕ → Bool) (numWindows : ℕ) : RunAllState :=
  (List.range numWindows).foldl (runAllStep fails) ⟨false, []⟩

/-! ### Basic step lemmas for the pulling loop -/

/-- Every iteration of the pulling loop adds exactly `r0_increment p` to the
restraint center, in both branches of the capture check. -/
lemma smdStep_r0 {α : Type} (p : SMDParams) (st : SMDState α) (o : ℚ × α) :
    (smdStep p st o).r0 = st.r0 + r0_increment p := by
  simp only [smdStep]
  split <;> rfl

/-- Every iteration appends exactly one value to the `setParameter` log:
the freshly incremented center. -/
lemma smdStep_r0_log {α : Type} (p : SMDParams) (st : SMDState α) (o : ℚ × α) :
    (smdStep p st o).r0_log = st.r0_log ++ [st.r0 + r0_increment p] := by
  simp only [smdStep]
  split <;> rfl

/-- Characterization of the capture branch of one iteration. -/
lemma smdStep_capture_pos {α : Type} (p : SMDParams) (st : SMDState α)
    (o : ℚ × α)
    (h : st.window_index < p.windows.length ∧
      p.windows.getD st.window_index 0 ≤ o.1) :
    (smdStep p st o).window_coords = st.window_coords ++ [o.2] ∧
    (smdStep p st o).window_index = st.window_index + 1 ∧
    (smdStep p st o).captured_cvs = st.captured_cvs ++ [o.1] := by
  simp only [smdStep]
  rw [if_pos h]
  exact ⟨rfl, rfl, rfl⟩

/-- Characterization of the non-capture branch of one iteration. -/
lemma smdStep_capture_neg {α : Type} (p : SMDParams) (st : SMDState α)
    (o : ℚ × α)
    (h : ¬(st.window_index < p.windows.length ∧
      p.windows.getD st.window_index 0 ≤ o.1)) :
    (smdStep p st o).window_coords = st.window_coords ∧
    (smdStep p st o).window_index = st.window_index ∧
    (smdStep p st o).captured_cvs = st.captured_cvs := by
  simp only [smdStep]
  rw [if_neg h]
  exact ⟨rfl, rfl, rfl⟩

/-! ### Fold lemmas for the pulling loop -/

/-- Closed form of the restraint center after folding the loop over any
observation trace: the start value plus one increment per iteration. -/
lemma smdFoldl_r0 {α : Type} (p : SMDParams) (obs : List (ℚ × α)) :
    ∀ st : SMDState α,
      (obs.foldl (smdStep p) st).r0 = st.r0 + (obs.length : ℚ) * r0_increment p := by
  induction obs with
  | nil => intro st; simp
  | cons o l ih =>
    intro st
    rw [List.foldl_cons, ih, smdStep_r0]
    simp only [List.length_cons]
    push_cast
    ring

/-- Closed form of the `setParameter('r0', ...)` log: the k-th value set is
`st.r0 + (k+1) * r0_increment p`, a function of the parameters and the
iteration number only. -/
lemma smdFoldl_r0_log {α : Type} (p : SMDParams) (obs : List (ℚ × α)) :
    ∀ st : SMDState α,
      (obs.foldl (smdStep p) st).r0_log =
        st.r0_log ++ (List.range obs.length).map
          (fun k : ℕ => st.r0 + ((k : ℚ) + 1) * r0_increment p) := by
  induction obs with
  | nil => intro st; simp
  | cons o l ih =>
    intro st
    rw [List.foldl_cons, ih, smdStep_r0_log, smdStep_r0]
    simp only [List.length_cons, List.range_succ_eq_map, List.map_cons,
      List.map_map, List.append_assoc, List.singleton_append]
    congr 2
    · push_cast; ring
    · apply List.map_congr_left
      intro k _
      simp only [Function.comp]
      push_cast
      ring

/-- The pulling loop preserves the invariant that the window pointer equals
the number of captured snapshots, equals the number of logged capture CV
values, and never exceeds the number of target windows. -/
lemma smdFoldl_counts {α : Type} (p : SMDParams) (obs : List (ℚ × α)) :
    ∀ st : SMDState α,
      st.window_index = st.window_coords.length →
      st.window_index = st.captured_cvs.length →
      st.window_index ≤ p.windows.length →
      (obs.foldl (smdStep p) st).window_index
          = (obs.foldl (smdStep p) st).window_coords.length ∧
      (obs.foldl (smdStep p) st).window_index
          = (obs.foldl (smdStep p) st).captured_cvs.length ∧
      (obs.foldl (smdStep p) st).window_index ≤ p.windows.length := by
  induction obs with
  | nil => intro st h1 h2 h3; exact ⟨h1, h2, h3⟩
  | cons o l ih =>
    intro st h1 h2 h3
    rw [List.foldl_cons]
    by_cases h : st.window_index < p.windows.length ∧
      p.windows.getD st.window_index 0 ≤ o.1
    · obtain ⟨hc, hi, hcv⟩ := smdStep_capture_pos p st o h
      exact ih _ (by rw [hc, hi, List.length_append, h1]; rfl)
        (by rw [hcv, hi, List.length_append, h2]; rfl)
        (by rw [hi]; exact h.1)
    · obtain ⟨hc, hi, hcv⟩ := smdStep_capture_neg p st o h
      exact ih _ (by rw [hc, hi]; exact h1) (by rw [hcv, hi]; exact h2)
        (by rw [hi]; exact h3)

/-- The CV values logged at capture moments form a sublist of the CV values
observed at the checks, in order. -/
lemma smdFoldl_captured_sublist {α : Type} (p : SMDParams)
    (obs : List (ℚ × α)) :
    ∀ st : SMDState α,
      List.Sublist (obs.foldl (smdStep p) st).captured_cvs
        (st.captured_cvs ++ obs.map Prod.fst) := by
  induction obs with
  | nil => intro st; simp
  | cons o l ih =>
    intro st
    rw [List.foldl_cons]
    have h := ih (smdStep p st o)
    by_cases hc : st.window_index < p.windows.length ∧
      p.windows.getD st.window_index 0 ≤ o.1
    · rw [(smdStep_capture_pos p st o hc).2.2] at h
      rw [List.map_cons]
      simpa [List.append_assoc] using h
    · rw [(smdStep_capture_neg p st o hc).2.2] at h
      refine h.trans ?_
      rw [List.map_cons]
      exact List.Sublist.append_left (List.sublist_cons_self o.1 (l.map Prod.fst))
        st.captured_cvs

/-! ### Concrete inputs used for counterexamples and witnesses -/

/-- A small pulling setup with two target windows at 1 and 2 (the restraint
speed is irrelevant to the capture logic, so it is set to zero here). -/
def smdTwoWindows : SMDParams :=
  { v_pulling := 0, dt := 0, increment_steps := 0, r0_start := 0,
    windows := [1, 2] }

/-- Pulling parameters with the notebook's numeric values:
`v_pulling = 0.02 nm/ps`, `dt = 0.004 ps`, `increment_steps = 10`,
`r0 = 1.3 nm`, two of the notebook's window centers. -/
def smdNotebookParams : SMDParams :=
  { v_pulling := 1 / 50, dt := 1 / 250, increment_steps := 10,
    r0_start := 13 / 10, windows := [13 / 10, 7 / 5] }

/-- Claim C1 counterexample: the capture check of the pulling loop is an
`if`, not a `while`. On a trace with a single check whose live CV value 5
overshoots both targets 1 and 2 at once, exactly one snapshot is recorded
during that check and the pointer advances to 1, not 2 — so it is not the
case that every overshot target receives a snapshot during the same check. -/
theorem smd_overshoot_single_capture :
    (smdRun smdTwoWindows [((5 : ℚ), ())]).window_coords.length = 1 ∧
    (smdRun smdTwoWindows [((5 : ℚ), ())]).window_index ≠ 2 := by
  decide

/-- Claim C1 (amended): after each CV evaluation the capture check is a
single `if`: when the pointer is valid and the live CV ≥ the pointed-to
target, exactly one snapshot is recorded and the pointer advances by one;
otherwise nothing is recorded. When the CV overshoots several targets
between two checks, at most one of them is captured at that check; the
remaining overshot targets are captured one per subsequent check. -/
theorem smd_capture_once_per_check {α : Type} (p : SMDParams)
    (st : SMDState α) (o : ℚ × α) :
    ((st.window_index < p.windows.length ∧
        p.windows.getD st.window_index 0 ≤ o.1) →
      (smdStep p st o).window_coords = st.window_coords ++ [o.2] ∧
      (smdStep p st o).window_index = st.window_index + 1) ∧
    (¬(st.window_index < p.windows.length ∧
        p.windows.getD st.window_index 0 ≤ o.1) →
      (smdStep p st o).window_coords = st.window_coords ∧
      (smdStep p st o).window_index = st.window_index) := by
  constructor
  · intro h
    exact ⟨(smdStep_capture_pos p st o h).1, (smdStep_capture_pos p st o h).2.1⟩
  · intro h
    exact ⟨(smdStep_capture_neg p st o h).1, (smdStep_capture_neg p st o h).2.1⟩

/-- Witness for `smd_capture_once_per_check` at a concrete check: from the
initial state, a check with live CV 5 against targets [1, 2] captures one
snapshot and moves the pointer from 0 to 1. -/
theorem smd_capture_once_per_check_witness :
    (smdStep smdTwoWindows (smdInit Unit smdTwoWindows)
        ((5 : ℚ), ())).window_index
      = (smdInit Unit smdTwoWindows).window_index + 1 :=
  ((smd_capture_once_per_check smdTwoWindows (smdInit Unit smdTwoWindows)
    ((5 : ℚ), ())).1 (by decide)).2

/-- Claim C2 counterexample: when the steering trace ends before the CV
reaches any target (live CV stays at 0 below both targets 1 and 2), the
Generator returns normally with an empty file list — zero snapshot files
for two requested windows. No `IncompleteWindowCaptureError` exists
anywhere in the code: the Generator's output is a plain value with no error
channel, i.e. the truncation is silent. -/
theorem smd_generate_truncates_silently :
    smdTwoWindows.windows.length = 2 ∧
    (smdGenerate smdTwoWindows [((0 : ℚ), ())]).1 = [] := by
  decide

/-- Claim C2 (amended): the Generator writes exactly one snapshot file per
captured window, in target order, and at most `N` of them; if the steering
trace is exhausted before the CV reaches the final target it silently
writes fewer snapshot files than there are target windows — it raises no
error (its result type has no error case), so the truncation is observable
only through the number of files. -/
theorem smd_generate_file_count {α : Type} (p : SMDParams)
    (obs : List (ℚ × α)) :
    (smdGenerate p obs).1.length = (smdRun p obs).window_coords.length ∧
    (smdRun p obs).window_coords.length ≤ p.windows.length := by
  constructor
  · simp [smdGenerate, saveWindowFiles, List.enum_length]
  · have h := smdFoldl_counts p obs (smdInit α p) rfl rfl (Nat.zero_le _)
    have := h.2.2
    rw [show (obs.foldl (smdStep p) (smdInit α p)) = smdRun p obs from rfl] at h
    exact h.1 ▸ h.2.2

/-- Claim C6: on each iteration of the pulling loop the restraint center is
incremented by exactly `v_pulling * dt * increment_steps`; after the whole
run of `k` iterations it equals `r0_start + k * (v_pulling * dt *
increment_steps)`; when the increment is nonnegative (as with the
notebook's positive pulling speed) the center never decreases along the
run; and the Generator's save phase leaves the final center untouched. -/
theorem smd_r0_schedule {α : Type} (p : SMDParams) (l1 l2 : List (ℚ × α))
    (hv : 0 ≤ r0_increment p) :
    (smdRun p (l1 ++ l2)).r0
        = p.r0_start + ((l1 ++ l2).length : ℚ) * r0_increment p ∧
    (smdRun p l1).r0 ≤ (smdRun p (l1 ++ l2)).r0 ∧
    (smdGenerate p (l1 ++ l2)).2.r0 = (smdRun p (l1 ++ l2)).r0 := by
  have hall := smdFoldl_r0 p (l1 ++ l2) (smdInit α p)
  have h1 := smdFoldl_r0 p l1 (smdInit α p)
  refine ⟨hall, ?_, rfl⟩
  rw [show smdRun p (l1 ++ l2) = (l1 ++ l2).foldl (smdStep p) (smdInit α p)
      from rfl, hall]
  rw [show smdRun p l1 = l1.foldl (smdStep p) (smdInit α p) from rfl, h1]
  have hlen : ((l1.length : ℚ)) ≤ (((l1 ++ l2).length : ℚ)) := by
    rw [List.length_append]
    push_cast
    linarith [Nat.cast_nonneg (α := ℚ) l2.length]
  have : (smdInit α p).r0 = p.r0_start := rfl
  rw [this]
  have := mul_le_mul_of_nonneg_right hlen hv
  linarith

/-- Witness for `smd_r0_schedule` with the notebook's numbers: after two
iterations (one plus one more) the center is `1.3 + 2 * 0.0008 = 1.3016`,
at least its value after one iteration, and the save phase preserves it. -/
theorem smd_r0_schedule_witness :
    (smdRun smdNotebookParams ([((0 : ℚ), ())] ++ [((0 : ℚ), ())])).r0
        = smdNotebookParams.r0_start
          + ((([((0 : ℚ), ())] ++ [((0 : ℚ), ())]).length : ℕ) : ℚ)
            * r0_increment smdNotebookParams ∧
    (smdRun smdNotebookParams [((0 : ℚ), ())]).r0
        ≤ (smdRun smdNotebookParams ([((0 : ℚ), ())] ++ [((0 : ℚ), ())])).r0 ∧
    (smdGenerate smdNotebookParams ([((0 : ℚ), ())] ++ [((0 : ℚ), ())])).2.r0
        = (smdRun smdNotebookParams ([((0 : ℚ), ())] ++ [((0 : ℚ), ())])).r0 :=
  smd_r0_schedule smdNotebookParams [((0 : ℚ), ())] [((0 : ℚ), ())]
    (by norm_num [r0_increment, smdNotebookParams])

/-- Claim C9: the restraint-center schedule is open-loop. The sequence of
values passed to `setParameter('r0', ...)` over the run is exactly
`r0_start + (k+1) * (v_pulling * dt * increment_steps)` for
`k = 0, 1, ...` — a function of the parameters and the iteration count
alone — so two steering runs with identical parameters and step budget but
arbitrarily different dynamics (different observed CV values and positions)
set the identical sequence of center values. -/
theorem smd_r0_log_open_loop {α : Type} (p : SMDParams)
    (obs obsAlt : List (ℚ × α)) (hlen : obs.length = obsAlt.length) :
    (smdRun p obs).r0_log
        = (List.range obs.length).map
            (fun k : ℕ => p.r0_start + ((k : ℚ) + 1) * r0_increment p) ∧
    (smdRun p obs).r0_log = (smdRun p obsAlt).r0_log := by
  have h := smdFoldl_r0_log p obs (smdInit α p)
  have h' := smdFoldl_r0_log p obsAlt (smdInit α p)
  constructor
  · simpa [smdRun, smdInit] using h
  · rw [show smdRun p obs = obs.foldl (smdStep p) (smdInit α p) from rfl, h,
      show smdRun p obsAlt = obsAlt.foldl (smdStep p) (smdInit α p) from rfl,
      h', hlen]

/-- Witness for `smd_r0_log_open_loop`: two one-iteration traces whose
observed CV values differ (0 versus 9) produce the same center log. -/
theorem smd_r0_log_open_loop_witness :
    (smdRun smdNotebookParams [((0 : ℚ), ())]).r0_log
        = (List.range ([((0 : ℚ), ())].length)).map
            (fun k : ℕ => smdNotebookParams.r0_start
              + ((k : ℚ) + 1) * r0_increment smdNotebookParams) ∧
    (smdRun smdNotebookParams [((0 : ℚ), ())]).r0_log
        = (smdRun smdNotebookParams [((9 : ℚ), ())]).r0_log :=
  smd_r0_log_open_loop smdNotebookParams [((0 : ℚ), ())] [((9 : ℚ), ())] rfl

/-! ### The Window Sampler (run_window) -/

/-- Closed form of the recording fold of `run_window`: starting from step
count `st` with `acc` already recorded, `n` iterations of stride `s` end at
step count `st + n * s` having appended the sample `(i, cv at step
st + (i+1) * s)` for each `i < n`. -/
lemma runWindowRecord_fold (s : ℕ) (cv : ℕ → ℚ) :
    ∀ (n st : ℕ) (acc : List (ℕ × ℚ)),
      (List.range n).foldl
          (fun a i => (a.1 + s, a.2 ++ [(i, cv (a.1 + s))])) (st, acc)
        = (st + n * s,
           acc ++ (List.range n).map (fun i => (i, cv (st + (i + 1) * s)))) := by
  intro n
  induction n with
  | zero => intro st acc; simp
  | succ m ih =>
    intro st acc
    rw [List.range_succ, List.foldl_append, ih, List.map_append]
    simp only [List.foldl_cons, List.foldl_nil, List.map_cons, List.map_nil]
    have harg : st + m * s + s = st + (m + 1) * s := by ring
    rw [harg, List.append_assoc]

/-- The timeseries produced by `run_window` in map form. -/
lemma run_window_cv_values_eq (wp : WindowParams) (cvAfter : ℕ → ℚ) :
    run_window_cv_values wp cvAfter
      = (List.range (wp.total_steps / wp.record_steps)).map
          (fun i => (i, cvAfter (wp.equil_steps + (i + 1) * wp.record_steps))) := by
  unfold run_window_cv_values runWindowRecord
  rw [runWindowRecord_fold]
  simp

/-- Claim C3: `run_window` first performs the equilibration steps with
nothing recorded (every recorded sample is taken at a step count strictly
beyond `equil_steps`), then samples the live CV exactly once per
`record_steps` production steps: the i-th recorded row is
`(i, CV after equil_steps + (i+1) * record_steps steps)`, the timeseries
has exactly `total_steps / record_steps` rows (two columns: sample index
and CV value), and with the notebook's constants (`total_steps = 10000`,
`record_steps = 100`, 1000 equilibration steps) exactly 100 samples. -/
theorem run_window_cv_values_spec (wp : WindowParams) (cvAfter : ℕ → ℚ) :
    run_window_cv_values wp cvAfter
        = (List.range (wp.total_steps / wp.record_steps)).map
            (fun i => (i, cvAfter (wp.equil_steps + (i + 1) * wp.record_steps))) ∧
    (run_window_cv_values wp cvAfter).length
        = wp.total_steps / wp.record_steps ∧
    (run_window_cv_values notebookWindowParams cvAfter).length = 100 := by
  refine ⟨run_window_cv_values_eq wp cvAfter, ?_, ?_⟩
  · rw [run_window_cv_values_eq]
    simp
  · rw [run_window_cv_values_eq]
    simp [notebookWindowParams]

/-! ### Monotonic capture (Claim C4) -/

/-- Claim C4: if the target centers are monotonic non-decreasing and the
live CV values observed at successive checks are monotonic non-decreasing,
then the pulling loop captures windows in increasing index order — the
pointer equals the number of snapshots captured so far, i.e. it advances by
exactly one per capture and never skips or revisits — and the CV values at
the capture moments are non-decreasing. -/
theorem smd_monotonic_capture {α : Type} (p : SMDParams)
    (obs : List (ℚ × α))
    (hws : p.windows.Pairwise (· ≤ ·))
    (hcv : (obs.map Prod.fst).Pairwise (· ≤ ·)) :
    (smdRun p obs).window_index = (smdRun p obs).window_coords.length ∧
    (smdRun p obs).window_index = (smdRun p obs).captured_cvs.length ∧
    (smdRun p obs).captured_cvs.Pairwise (· ≤ ·) := by
  have h := smdFoldl_counts p obs (smdInit α p) rfl rfl (Nat.zero_le _)
  have hsub := smdFoldl_captured_sublist p obs (smdInit α p)
  refine ⟨h.1, h.2.1, ?_⟩
  have hnil : (smdInit α p).captured_cvs ++ obs.map Prod.fst
      = obs.map Prod.fst := rfl
  rw [hnil] at hsub
  exact List.Pairwise.sublist hsub hcv

/-- The two-check trace used to witness `smd_monotonic_capture`: CV values
1 then 2, matching the two targets. -/
def twoCheckTrace : List (ℚ × Unit) := [((1 : ℚ), ()), ((2 : ℚ), ())]

/-- Witness for `smd_monotonic_capture` on the concrete two-window setup
with a monotone trace hitting both targets. -/
theorem smd_monotonic_capture_witness :
    (smdRun smdTwoWindows twoCheckTrace).window_index
        = (smdRun smdTwoWindows twoCheckTrace).window_coords.length ∧
    (smdRun smdTwoWindows twoCheckTrace).window_index
        = (smdRun smdTwoWindows twoCheckTrace).captured_cvs.length ∧
    (smdRun smdTwoWindows twoCheckTrace).captured_cvs.Pairwise (· ≤ ·) :=
  smd_monotonic_capture smdTwoWindows twoCheckTrace (by decide) (by decide)

/-! ### Running all windows (Claim C5) -/

/-- Once an exception has aborted the run-all loop, no further window
executes. -/
lemma runAllFold_aborted (fails : ℕ → Bool) (l : List ℕ) :
    ∀ st : RunAllState, st.aborted = true →
      l.foldl (runAllStep fails) st = st := by
  induction l with
  | nil => intro st _; rfl
  | cons x xs ih =>
    intro st h
    rw [List.foldl_cons, runAllStep, if_pos h]
    exact ih st h

/-- While no window has failed, the loop executes windows `0, 1, ...` in
order. -/
lemma runAllWindows_ok (fails : ℕ → Bool) :
    ∀ m : ℕ, (∀ j, j < m → fails j = false) →
      runAllWindows fails m = ⟨false, List.range m⟩ := by
  intro m
  induction m with
  | zero => intro _; rfl
  | succ k ih =>
    intro h
    unfold runAllWindows at ih ⊢
    rw [List.range_succ, List.foldl_append,
      ih (fun j hj => h j (Nat.lt_succ_of_lt hj))]
    simp [runAllStep, h k (Nat.lt_succ_self k), List.range_succ]

/-- The windows-executed trace used in Claim C5: `run_window` raises (for
example a numerical-instability error) exactly at window 1. -/
def failSecond : ℕ → Bool := fun i => decide (i = 1)

/-- Claim C5 counterexample: with three windows and a failure raised in
window 1's run, the loop `for n in range(3): run_window(n)` executes only
windows 0 and 1 and aborts: window 2 never runs, and the failure propagates
as a single abort of the stage — failures are not collected per window and
sibling windows are not continued. -/
theorem run_all_windows_abort_example :
    (runAllWindows failSecond 3).executed = [0, 1] ∧
    (runAllWindows failSecond 3).aborted = true ∧
    2 ∉ (runAllWindows failSecond 3).executed := by
  decide

/-- Claim C5 (amended): a failure raised during window `k`'s sampling run
aborts the whole run-all loop: exactly windows `0..k` are executed, the
loop ends in the aborted state, and windows `k+1..N-1` are never run. The
exception propagates as a single abort of the stage; no per-window failure
set is collected. -/
theorem run_all_windows_abort_after_failure (fails : ℕ → Bool) (k n : ℕ)
    (hk : fails k = true) (hbefore : ∀ j, j < k → fails j = false)
    (hkn : k < n) :
    runAllWindows fails n = ⟨true, List.range (k + 1)⟩ := by
  have hsplit : n = (k + 1) + (n - (k + 1)) := by omega
  rw [hsplit]
  unfold runAllWindows
  rw [List.range_add, List.foldl_append]
  have hfirst : (List.range (k + 1)).foldl (runAllStep fails) ⟨false, []⟩
      = ⟨true, List.range (k + 1)⟩ := by
    rw [List.range_succ, List.foldl_append]
    have hok := runAllWindows_ok fails k hbefore
    unfold runAllWindows at hok
    rw [hok]
    simp [runAllStep, hk, List.range_succ]
  rw [hfirst]
  exact runAllFold_aborted fails _ _ rfl

/-- Witness for `run_all_windows_abort_after_failure`: failure at window 1
of 3 executes exactly windows 0 and 1. -/
theorem run_all_windows_abort_witness :
    runAllWindows failSecond 3 = ⟨true, List.range 2⟩ :=
  run_all_windows_abort_after_failure failSecond 1 3 rfl
    (fun j hj => by
      have hj0 : j = 0 := by omega
      subst hj0
      rfl)
    (by omega)

/-! ### The WHAM metadata file (Claims C7, C8) -/

/-- The metadata lines in map form: the loop only ever appends one line per
window index, built from the index and the window center alone. -/
lemma metafilelines_eq_map (cvData : ℕ → List ℚ) (ws : List ℚ) :
    metafilelines cvData ws
      = (List.range ws.length).map
          (fun i => { filename := meta_filename i, center := ws.getD i 0,
                      k := 1000 : MetaLine }) := by
  unfold metafilelines
  have h : ∀ (l : List ℕ) (acc : List MetaLine),
      l.foldl
          (fun a i =>
            let _data := cvData i
            a ++ [{ filename := meta_filename i, center := ws.getD i 0,
                    k := 1000 : MetaLine }]) acc
        = acc ++ l.map
            (fun i => { filename := meta_filename i, center := ws.getD i 0,
                        k := 1000 : MetaLine }) := by
    intro l
    induction l with
    | nil => intro acc; simp
    | cons x xs ih =>
      intro acc
      rw [List.foldl_cons, ih]
      simp
  rw [h]
  simp

/-- Claim C7: the WHAM metadata file has exactly one line per window, in
window order; line `i` consists of the timeseries filename that
`run_window` actually wrote for window `i`, the `i`-th target window
center, and the force constant `fc_pull = 1000` used for the harmonic
restraint during sampling — whitespace-separated in the file, modelled here
as the three fields of `MetaLine`. -/
theorem metafile_lines_spec (cvData : ℕ → List ℚ) (ws : List ℚ) (i : ℕ)
    (hi : i < ws.length) :
    (metafilelines cvData ws).length = ws.length ∧
    (metafilelines cvData ws).get? i
      = some { filename := cv_values_filename i, center := ws.getD i 0,
               k := fc_pull } := by
  rw [metafilelines_eq_map]
  constructor
  · simp
  · rw [List.get?_map, List.get?_range hi]
    rfl

/-- Witness for `metafile_lines_spec` on two concrete windows: line 1 names
window 1's timeseries file, its center, and the force constant 1000. -/
theorem metafile_lines_spec_witness :
    (metafilelines (fun _ => []) [13 / 10, 7 / 5]).length
        = ([13 / 10, 7 / 5] : List ℚ).length ∧
    (metafilelines (fun _ => []) [13 / 10, 7 / 5]).get? 1
      = some { filename := cv_values_filename 1,
               center := ([13 / 10, 7 / 5] : List ℚ).getD 1 0, k := fc_pull } :=
  metafile_lines_spec (fun _ => []) [13 / 10, 7 / 5] 1 (by simp)

/-- Per-window CV data in which the two adjacent windows' histograms share
no bin: window 0's samples sit in the first bin, window 1's in the last. -/
def dataNoOverlap : ℕ → List ℚ := fun i => if i = 0 then [1 / 2] else [7 / 2]

/-- Per-window CV data whose two histograms do share a bin. -/
def dataWithOverlap : ℕ → List ℚ := fun i => if i = 0 then [5 / 2] else [9 / 4]

/-- Claim C8 counterexample: the pipeline performs no overlap check. On
concrete data whose two adjacent windows have histograms with zero
overlapping bins (over 4 bins spanning [0, 4]), the analysis stage behaves
exactly as on data with overlapping histograms: it produces the identical
metadata file and proceeds (the WHAM invocation in the notebook is an
unconditional shell command) — nothing is flagged as a warning or error. -/
theorem no_overlap_not_flagged :
    overlapBinCount (histCounts 4 0 4 (dataNoOverlap 0))
        (histCounts 4 0 4 (dataNoOverlap 1)) = 0 ∧
    0 < overlapBinCount (histCounts 4 0 4 (dataWithOverlap 0))
        (histCounts 4 0 4 (dataWithOverlap 1)) ∧
    metafilelines dataNoOverlap [1, 3] = metafilelines dataWithOverlap [1, 3] := by
  refine ⟨?_, ?_, ?_⟩
  · norm_num [dataNoOverlap, histCounts, overlapBinCount, List.range_succ, List.zip]
  · norm_num [dataWithOverlap, histCounts, overlapBinCount, List.range_succ, List.zip]
  · rw [metafilelines_eq_map, metafilelines_eq_map]

/-- Claim C8 (amended): before WHAM is invoked the pipeline makes no
automated window-overlap check — the histograms are drawn only for visual
inspection, and the entire non-plot output of the analysis stage (the
metadata file handed to WHAM) is independent of the CV data, so adjacent
windows with zero overlapping histogram bins are not flagged. -/
theorem metafilelines_independent_of_data (d dAlt : ℕ → List ℚ)
    (ws : List ℚ) :
    metafilelines d ws = metafilelines dAlt ws := by
  rw [metafilelines_eq_map, metafilelines_eq_map]

/-! ### Snapshot files and missing windows (Claim C10) -/

/-- Looking a key up in an enumeration that starts at `s`. -/
lemma lookup_enumFrom {α : Type} :
    ∀ (l : List α) (s n : ℕ),
      List.lookup n (List.enumFrom s l)
        = if n < s then none else l[n - s]? := by
  intro l
  induction l with
  | nil =>
    intro s n
    simp only [List.enumFrom, List.lookup]
    split <;> simp
  | cons a l ih =>
    intro s n
    by_cases h : n = s
    · subst h
      simp [List.enumFrom, List.lookup_cons]
    · have hne : (n == s) = false := by simp [h]
      simp only [List.enumFrom, List.lookup_cons, hne]
      rw [ih (s + 1) n]
      by_cases h2 : n < s
      · rw [if_pos (by omega), if_pos h2]
      · rw [if_neg (by omega), if_neg h2]
        have hsub : n - s = (n - (s + 1)) + 1 := by omega
        rw [hsub, List.getElem?_cons_succ]

/-- Looking up index `n` in the file store of an enumerated save loop gives
the `n`-th element. -/
lemma lookup_enum {α : Type} (l : List α) (n : ℕ) :
    List.lookup n l.enum = l[n]? := by
  rw [List.enum_eq_enumFrom, lookup_enumFrom]
  simp

/-- Claim C10: the save loop writes snapshot files with consecutive indices
`0..m-1` in capture order (`m` = number of snapshots captured): the file
keys are exactly `range m` and the file bodies are exactly the captured
coordinates in order. Consequently opening `window_n.pdb` in
`run_window(n)` yields exactly the `n`-th captured snapshot when `n < m`,
and fails (file not found, `none`) for every `n ≥ m` — it can never
silently deliver a wrong or stale configuration. -/
theorem window_files_lookup {α : Type} (coords : List α) (n : ℕ) :
    (saveWindowFiles coords).map Prod.fst = List.range coords.length ∧
    (saveWindowFiles coords).map Prod.snd = coords ∧
    loadWindowSnapshot (saveWindowFiles coords) n = coords[n]? ∧
    (coords.length ≤ n → loadWindowSnapshot (saveWindowFiles coords) n = none) := by
  refine ⟨List.enum_map_fst coords, List.enum_map_snd coords,
    lookup_enum coords n, ?_⟩
  intro h
  rw [loadWindowSnapshot, saveWindowFiles, lookup_enum]
  exact List.getElem?_eq_none h

/-- Witness for `window_files_lookup`: with two captured snapshots,
`run_window(3)` finds no `window_3.pdb` file. -/
theorem window_files_lookup_witness :
    loadWindowSnapshot (saveWindowFiles [(1 : ℚ), 2]) 3 = none :=
  (window_files_lookup [(1 : ℚ), 2] 3).2.2.2 (by simp)
